import Mathlib

/-!
Verification development for the bitcoinperf benchmarking harness.

Each definition below is a shallow embedding of a function of the Python
source (`runner/sh.py`, `runner/bitcoind.py`, `runner/git.py`,
`runner/benchmarks.py`); the corresponding source location is given in the
doc comment of every definition.  External effects (the filesystem, the
subprocess layer, the git object store, wall-clock time and the node's RPC
interface) are passed in as explicit values or functions, so every
definition is executable.  Machine floats (wall-clock seconds,
verification progress) are modelled as rationals: the source only ever
subtracts and compares them.
-/

namespace Bitcoinperf

/-! ### `sh.Command` (runner/sh.py)

A `Command` wraps a started (or not yet started) subprocess.  For the
behaviour of `check_for_failure` only two facts about the process matter:
whether `self.ps` exists at all, and the value of `self.ps.returncode`
(`None` while the process is still running).  We model this as
`ps : Option (Option Int)`: `none` when the process was never started,
`some none` while it runs, `some (some code)` once it has exited. -/
structure Command where
  ps : Option (Option Int)
deriving Repr, DecidableEq

/-- `Command.returncode` (sh.py:133-136): `assert self.ps` then
`return self.ps.returncode`.  A failing `assert` raises `AssertionError`. -/
def Command.returncode (c : Command) : Except String (Option Int) :=
  match c.ps with
  | none => .error "AssertionError: self.ps"
  | some rc => .ok rc

/-- `Command.check_for_failure` (sh.py:144-155): raise `RuntimeError` when
`self.returncode is None`, otherwise return `self.returncode != 0`. -/
def Command.check_for_failure (c : Command) : Except String Bool := do
  let rc ← c.returncode
  match rc with
  | none => .error "RuntimeError: cannot check for failure before completion"
  | some code => .ok (code != 0)

/-! ### Port selection (runner/bitcoind.py) -/

/-- `_find_unused_port` (bitcoind.py:310-326): starting from `startval`,
increment until binding succeeds.  `free p` models "binding 127.0.0.1:p
succeeds".  The Python loop runs unboundedly; we give it fuel and return
`none` when the fuel runs out (the Python process would still be looping). -/
def find_unused_port (free : Nat → Bool) : Nat → Nat → Option Nat
  | 0, _ => none
  | fuel + 1, portnum => if free portnum then some portnum
      else find_unused_port free fuel (portnum + 1)

/-- The port-selection part of `Node.__init__` (bitcoind.py:64-65):
`self.port = port or _find_unused_port()` and
`self.rpcport = rpcport or _find_unused_port(self.port + 1)`.
Python `or` treats `None` and `0` as falsy. -/
def nodeInitPorts (free : Nat → Bool) (fuel : Nat)
    (port0 rpcport0 : Option Nat) : Option (Nat × Nat) :=
  let portRes := match port0 with
    | some p => if p ≠ 0 then some p else find_unused_port free fuel 8888
    | none => find_unused_port free fuel 8888
  match portRes with
  | none => none
  | some port =>
      let rpcRes := match rpcport0 with
        | some p => if p ≠ 0 then some p else find_unused_port free fuel (port + 1)
        | none => find_unused_port free fuel (port + 1)
      match rpcRes with
      | none => none
      | some rpcport => some (port, rpcport)

/-! ### Version verification and the build cache (runner/bitcoind.py) -/

/-- `GitCheckout` (declared in runner/config.py, which is not part of the
source snapshot; fields and their order are exactly those of the
constructor calls in git.py:164-170 and git.py:213-220). -/
structure GitCheckout where
  ref : String
  remote : String
  sha : String
  commit_msg : String
  name : String
  pre_rebase_sha : Option String
deriving Repr, DecidableEq

/-- Whether the first character list is a prefix of the second. -/
def chHasPrefix : List Char → List Char → Bool
  | [], _ => true
  | _ :: _, [] => false
  | a :: as, b :: bs => a = b && chHasPrefix as bs

/-- Whether the first character list occurs contiguously in the second. -/
def chHasInfix : List Char → List Char → Bool
  | pat, [] => chHasPrefix pat []
  | pat, c :: rest => chHasPrefix pat (c :: rest) || chHasInfix pat rest

/-- Python's substring test `pat in s`. -/
def strContains (s pat : String) : Bool :=
  chHasInfix pat.toList s.toList

/-- The suffix after the first occurrence of `sep`, scanning left to
right; `none` when `sep` does not occur. -/
def afterFirst (sep : List Char) : List Char → Option (List Char)
  | [] => none
  | c :: rest =>
      if chHasPrefix sep (c :: rest) then some ((c :: rest).drop sep.length)
      else afterFirst sep rest

/-- The part after the last non-overlapping occurrence of `sep` (the
whole list when `sep` does not occur).  Each recursion step strips at
least one character when `sep` is nonempty, so fuel `s.length + 1`
makes this total. -/
def lastPieceFuel (sep : List Char) : Nat → List Char → List Char
  | 0, s => s
  | fuel + 1, s =>
      match afterFirst sep s with
      | none => s
      | some tail => lastPieceFuel sep fuel tail

/-- Python's `s.split(sep)[-1]` for a nonempty separator. -/
def pySplitLast (sep s : String) : List Char :=
  lastPieceFuel sep.toList (s.toList.length + 1) s.toList

/-- One iteration of the binary check in `_assert_version`
(bitcoind.py:580-592): take the version line reported by a binary, let
`version = version_line.split('version ')[-1]`, and raise unless the
checkout's `sha[:7]` or its `ref` occurs in it. -/
def assert_version_line (gitco : GitCheckout) (version_line : String) :
    Except String Unit :=
  let version := pySplitLast "version " version_line
  if ¬ chHasInfix (gitco.sha.toList.take 7) version
      ∧ ¬ chHasInfix gitco.ref.toList version
  then .error "RuntimeError: bad checkout"
  else .ok ()

/-- What the filesystem and the two restored binaries look like to
`BuildCache.restore`: whether a cache entry exists at the derived key, and
the `-version` output line of the restored `bitcoind` and `bitcoin-cli`. -/
structure BuildEnv where
  cacheEntryExists : Bool
  bitcoindVersionLine : String
  bitcoincliVersionLine : String
deriving Repr, DecidableEq

/-- `_assert_version` (bitcoind.py:580-592) checks both binaries in order. -/
def assert_version (gitco : GitCheckout) (env : BuildEnv) :
    Except String Unit := do
  assert_version_line gitco env.bitcoindVersionLine
  assert_version_line gitco env.bitcoincliVersionLine

/-- Filesystem operations `BuildCache.restore` can perform, in the order
the source issues them. -/
inductive FsOp where
  | cdWorkdir
  | rmRepoPath
  | copyCacheToRepo
  | cdRepoPath
  | rmCacheEntry
deriving Repr, DecidableEq

/-- `BuildCache.restore` (bitcoind.py:540-564).  Returns the filesystem
operations performed together with the Python return value — `.ok b` for a
normal return, `.error e` for a propagated exception.  The source performs
`cd(workdir); rm(repo_path); copytree(cache, repo_path)`, then calls
`_assert_version` (whose exception, if any, propagates: there is no
`try`/`except` and no deletion of the cache entry), then `cd(repo_path)`
and returns `True`. -/
def BuildCache.restore (gitco : GitCheckout) (env : BuildEnv) :
    List FsOp × Except String Bool :=
  if ¬ env.cacheEntryExists then ([], .ok false)
  else
    match assert_version gitco env with
    | .error e => ([.cdWorkdir, .rmRepoPath, .copyCacheToRepo], .error e)
    | .ok () =>
        ([.cdWorkdir, .rmRepoPath, .copyCacheToRepo, .cdRepoPath], .ok true)

/-- Outcome of the cache consultation inside `BuildManager.build`
(bitcoind.py:441-443): `if self.cache_path and cache.restore(target):
return None` — `usedCache` models the early `return None`, `compiled`
models falling through to a full configure/compile. -/
inductive BuildOutcome where
  | usedCache
  | compiled
deriving Repr, DecidableEq

/-- The cache-consultation step of `BuildManager.build`
(bitcoind.py:441-443).  An exception raised by `restore` propagates to the
caller of `build`; it is not caught and does not fall back to compiling. -/
def buildCacheStep (cachePathSet : Bool) (gitco : GitCheckout)
    (env : BuildEnv) : Except String BuildOutcome :=
  if cachePathSet then
    match (BuildCache.restore gitco env).2 with
    | .error e => .error e
    | .ok true => .ok .usedCache
    | .ok false => .ok .compiled
  else .ok .compiled

/-! ### Revision resolution (runner/git.py)

`resolve_targets` shells out to git; we model the repository as a bundle
of lookup functions (fixed for an unmodified repository) plus the single
piece of mutable state the function manipulates: which commit `HEAD`
points at.  `git reset --hard origin/master` sets `HEAD` to the mainline
tip; `git rebase origin/master` moves `HEAD` to whatever commit the rebase
leaves checked out.  All `sh.run` calls in the source use `check=False`,
so a failing git command never raises; following that, `rebaseOk` (the
exit status of the rebase command) is read and then ignored, exactly as
the source ignores the `RunReturn` of `sh.run('git rebase origin/master')`
(git.py:206). -/
structure GitRepo where
  /-- sha of `origin/master` (the target of `git reset --hard`). -/
  mainline : String
  /-- `git rev-parse <ref>`: `some sha` on success, `none` on failure. -/
  resolveRef : String → Option String
  /-- whether `git show <ref>` exits 0. -/
  showOk : String → Bool
  /-- `git log -1 --pretty=%B <ref>` output, stripped. -/
  commitMsg : String → String
  /-- `git merge-base origin/master <arg>`: `some sha` or failure. -/
  mergeBase : String → Option String
  /-- the commit `HEAD` points at after running `git rebase origin/master`
  from the given `HEAD`. -/
  rebaseNewHead : String → String
  /-- whether that rebase command exited 0 (ignored by the source). -/
  rebaseOk : String → Bool

/-- `config.Target`, as used by git.py (the declaring module is not part
of the source snapshot; the fields are those read in git.py:139-222:
`gitref`, `gitremote`, `name`, `rebase`). -/
structure Target where
  gitref : String
  gitremote : String
  name : Option String
  rebase : Bool
deriving Repr, DecidableEq

/-- `MERGEBASE_REF` (git.py:91). -/
def MERGEBASE_REF : String := "$mergebase"

/-- The test `MERGEBASE_REF in [t.name, t.gitref]` (git.py:139-140). -/
def isMergebaseTarget (tar : Target) : Bool :=
  tar.name = some MERGEBASE_REF || tar.gitref = MERGEBASE_REF

/-- `get_git_mergebase` (git.py:235-244): pick
`<remote>/<name>` unless the name is raw hex, run `git merge-base`, raise
`ValueError` on failure. -/
def get_git_mergebase (repo : GitRepo) (is_hex : String → Bool)
    (remote name : String) : Except String String :=
  let arg := if ¬ is_hex name then remote ++ "/" ++ name else name
  match repo.mergeBase arg with
  | none => .error "ValueError: could not get merge-base"
  | some sha => .ok sha

/-- Resolution of one non-mergebase target (git.py:175-222).  Returns the
new `HEAD` and `some checkout`, or `none` when the ref was bad (the target
goes to `bad_targets` and the loop continues).  When `tar.rebase` is set,
the source runs `git rebase origin/master` against whatever is currently
checked out — it performs no checkout of the resolved commit first — then
records `pre_rebase_sha = sha` and `sha = get_sha('HEAD')`. -/
def resolveOne (repo : GitRepo) (is_hex : String → Bool) (head : String)
    (tar : Target) : String × Option GitCheckout :=
  let shaBad : String × Bool :=
    if is_hex tar.gitref then
      (tar.gitref, ¬ repo.showOk tar.gitref)
    else
      match repo.resolveRef (tar.gitremote ++ "/" ++ tar.gitref) with
      | some s => (s, false)
      | none =>
          match repo.resolveRef tar.gitref with
          | some s => (s, false)
          | none => ("", true)
  if shaBad.2 then (head, none)
  else
    let sha := shaBad.1
    if tar.rebase then
      let _rebaseCommandOk := repo.rebaseOk head
      let head' := repo.rebaseNewHead head
      (head', some ⟨tar.gitref, tar.gitremote, head', repo.commitMsg head',
                    tar.name.getD "", some sha⟩)
    else
      (head, some ⟨tar.gitref, tar.gitremote, sha, repo.commitMsg sha,
                   tar.name.getD "", none⟩)

/-- The `for tar in others` loop of `resolve_targets` (git.py:175-222),
threading `HEAD` and accumulating checkouts and bad targets in order. -/
def resolveOthers (repo : GitRepo) (is_hex : String → Bool) :
    List Target → String → String × List GitCheckout × List Target
  | [], head => (head, [], [])
  | tar :: rest, head =>
      match resolveOne repo is_hex head tar with
      | (head', some co) =>
          let (headf, cos, bads) := resolveOthers repo is_hex rest head'
          (headf, co :: cos, bads)
      | (head', none) =>
          let (headf, cos, bads) := resolveOthers repo is_hex rest head'
          (headf, cos, tar :: bads)

/-- `resolve_targets` (git.py:94-224).  `head0` is the commit checked out
when the function is entered; the first thing the body does after the
fetches is `git reset --hard origin/master` (git.py:134).  Returns
`(checkouts, bad_targets, final HEAD)`, or the propagated exception from
the mergebase special case (git.py:154-162 / 235-244). -/
def resolve_targets (repo : GitRepo) (is_hex : String → Bool)
    (head0 : String) (targets : List Target) :
    Except String (List GitCheckout × List Target × String) :=
  let _ := head0
  let head1 := repo.mainline
  let mergebase := targets.filter isMergebaseTarget
  let others := targets.filter (fun tar => ¬ isMergebaseTarget tar)
  match mergebase with
  | [] =>
      let (headf, cos, bads) := resolveOthers repo is_hex others head1
      .ok (cos, bads, headf)
  | _ :: _ =>
      if others.length ≠ 1 then
        .error "ValueError: can only process mergebase against one other target"
      else
        match others with
        | [] => .error "ValueError: can only process mergebase against one other target"
        | other :: _ =>
            match get_git_mergebase repo is_hex other.gitremote other.gitref with
            | .error e => .error e
            | .ok mergebase_sha =>
                let mbco : GitCheckout :=
                  ⟨mergebase_sha, "origin", mergebase_sha,
                   repo.commitMsg mergebase_sha,
                   "origin/master (merge-base)", none⟩
                let (headf, cos, bads) := resolveOthers repo is_hex others head1
                .ok (mbco :: cos, bads, headf)

/-! ### The IBD polling state machine (`_IbdBench._run`, runner/benchmarks.py)

The polling loop (benchmarks.py:400-480) reads, on each iteration, the
node's process exit status, one RPC poll result, the wall clock, and the
node's memory usage; we package one iteration's readings as an `Obs` and
run the loop over a list of observations.  Measurements are the
`results.report_result` calls: each checkpoint produces a timing
measurement named after the checkpoint height plus a paired `.mem-usage`
measurement; the "reached tip" measurement is named `tip`
(`_get_codespeed_bench_name`, benchmarks.py:336-348).  Logging,
`time.sleep`, the `iters` counter and the in-memory results bookkeeping
(`height_to_data`, `total_time_secs`, ...) produce no measurements and are
not modelled, except that `height_to_data` inserts are kept as a list. -/

/-- The IBD-ish benchmark configuration fields read by the loop
(`start_height`, `end_height`, `time_heights` of the `BenchIbd*` configs
in runner/config.py; `end_height` defaults to `None`). -/
structure IBDishBench where
  start_height : Nat
  end_height : Option Nat
  time_heights : Option (List Nat)
deriving Repr, DecidableEq

/-- What one iteration of the polling loop observes: the process exit
status (`client_node.ps.returncode`), the RPC poll
(`poll_for_height_and_progress()`, `none` when the RPC never answered),
the wall-clock reading `time.time()`, and `memusage_kib()`. -/
structure Obs where
  retcode : Option Int
  poll : Option (Nat × ℚ)
  time : ℚ
  mem : ℚ
deriving Repr, DecidableEq

/-- A poll observation from a live, responding node. -/
structure PollOb where
  height : Nat
  progress : ℚ
  time : ℚ
  mem : ℚ
deriving Repr, DecidableEq

/-- Embed a live poll as a loop observation. -/
def mkObs (q : PollOb) : Obs :=
  { retcode := none, poll := some (q.height, q.progress),
    time := q.time, mem := q.mem }

/-- A measurement name: `<bench>.<checkpoint height>` or `<bench>.tip`. -/
inductive EmissionName where
  | checkpoint (h : Nat)
  | tip
deriving Repr, DecidableEq

/-- One `results.report_result` call: its name, whether it is the paired
`.mem-usage` metric, and the reported value. -/
structure Emission where
  name : EmissionName
  isMem : Bool
  value : ℚ
deriving Repr, DecidableEq

/-- The mutable state of `_IbdBench._run` across loop iterations:
`report_to_codespeed_heights`, `last_height_seen`, `progress`,
`start_time`, `time_now`, the measurements emitted so far, and the
`height_to_data` inserts. -/
structure IbdState where
  checkpoints : List Nat
  lastHeight : Nat
  progress : Option ℚ
  startTime : Option ℚ
  timeNow : Option ℚ
  emissions : List Emission
  heightData : List (Nat × ℚ)
deriving Repr, DecidableEq

/-- How the polling loop exited: the process died (`break` at
benchmarks.py:401-403, carrying the exit code), the end condition was met
(`break` at benchmarks.py:412-424), or the observation list ran out while
the Python loop would still be polling. -/
inductive LoopExit where
  | died (code : Int)
  | reachedEnd
  | ranOut
deriving Repr, DecidableEq

/-- Python `x or y` on an optional float: `None` and `0.0` are falsy.
Used for `start_time = start_time or time.time()` (benchmarks.py:417,435)
and `time_now or 0` (benchmarks.py:516). -/
def pyOrF (a : Option ℚ) (b : ℚ) : ℚ :=
  match a with
  | none => b
  | some x => if x = 0 then b else x

/-- The truthiness of `bench_cfg.end_height` (Python: `None` and `0` are
falsy). -/
def endTruthy (cfg : IBDishBench) : Bool :=
  match cfg.end_height with
  | none => false
  | some e => e ≠ 0

/-- `bench_cfg.end_height and last_height_seen >= bench_cfg.end_height`
(benchmarks.py:412-413). -/
def endReached (cfg : IBDishBench) (h : Nat) : Bool :=
  match cfg.end_height with
  | none => false
  | some e => e ≠ 0 && h ≥ e

/-- The checkpoint-consuming `while` loop (benchmarks.py:444-448 and
506-509): pop leading checkpoints that are `≤ h`; returns the popped
checkpoints in pop order and the remaining list. -/
def consumeCheckpoints : List Nat → Nat → List Nat × List Nat
  | [], _ => ([], [])
  | c :: rest, h =>
      if c ≤ h then
        let (popped, left) := consumeCheckpoints rest h
        (c :: popped, left)
      else ([], c :: rest)

/-- The two `report_result` calls made for one consumed checkpoint
(benchmarks.py:449-460 / 511-524): the timing measurement and the paired
`.mem-usage` measurement. -/
def checkpointEmissions (popped : List Nat) (tval mval : ℚ) : List Emission :=
  popped.flatMap fun c =>
    [⟨.checkpoint c, false, tval⟩, ⟨.checkpoint c, true, mval⟩]

/-- The polling loop of `_IbdBench._run` (benchmarks.py:400-480), one
observation per iteration.  Raising `RuntimeError` when the RPC never
answered (benchmarks.py:409-410) is the `.error` case. -/
def ibdLoop (cfg : IBDishBench) : List Obs → IbdState →
    Except String (IbdState × LoopExit)
  | [], st => .ok (st, .ranOut)
  | o :: rest, st =>
      match o.retcode with
      | some c => .ok (st, .died c)
      | none =>
          match o.poll with
          | none => .error "RuntimeError: RPC calls to node failed"
          | some (h, p) =>
              let st1 := { st with lastHeight := h, progress := some p }
              if endReached cfg h || p > 9999 / 10000 then
                .ok ({ st1 with startTime := some (pyOrF st1.startTime o.time) },
                     .reachedEnd)
              else if h < cfg.start_height then
                ibdLoop cfg rest st1
              else
                let stt := pyOrF st1.startTime o.time
                let tn := o.time - stt
                let (popped, left) := consumeCheckpoints st1.checkpoints h
                ibdLoop cfg rest
                  { st1 with
                    startTime := some stt,
                    timeNow := some tn,
                    checkpoints := left,
                    emissions := st1.emissions ++ checkpointEmissions popped tn o.mem,
                    heightData := st1.heightData ++ [(h, tn)] }

/-- The environment of the post-loop code (benchmarks.py:482-541): the
wall clock at loop exit, the exit code after the graceful stop (used when
the loop did not exit because the process had already died), the
disk-space-low log check, and `memusage_kib()` after shutdown. -/
structure PostEnv where
  timeAfterLoop : ℚ
  stopRetcode : Int
  diskLow : Bool
  finalMem : ℚ
deriving Repr, DecidableEq

/-- The post-loop code of `_IbdBench._run` (benchmarks.py:482-541).
Returns `(succeeded, all measurements emitted by the run)`.
`final_time = time.time() - start_time` raises `TypeError` when
`start_time` is still `None`; consulting an unbound `progress`
(benchmarks.py:528) raises `NameError`.  On failure
(benchmarks.py:495-500) the function returns early and emits nothing
beyond what the loop already emitted; on success it drains the remaining
checkpoints that are `≤ last_height_seen` at value `time_now or 0`
(benchmarks.py:506-524) and then, if `progress > 0.999` and no end height
is configured, emits the reached-tip pair (benchmarks.py:526-540). -/
def ibdPost (cfg : IBDishBench) (st : IbdState) (ex : LoopExit)
    (env : PostEnv) : Except String (Bool × List Emission) :=
  match st.startTime with
  | none => .error "TypeError: float minus NoneType"
  | some stt =>
      let finalTime := env.timeAfterLoop - stt
      let finalRet : Int := match ex with
        | .died c => c
        | _ => env.stopRetcode
      if finalRet != 0 || env.diskLow then .ok (false, st.emissions)
      else
        let (popped, _) := consumeCheckpoints st.checkpoints st.lastHeight
        let drained := checkpointEmissions popped (pyOrF st.timeNow 0) env.finalMem
        match st.progress with
        | none => .error "NameError: progress is not defined"
        | some p =>
            let tipEms : List Emission :=
              if p > 999 / 1000 && !endTruthy cfg then
                [⟨.tip, false, finalTime⟩, ⟨.tip, true, env.finalMem⟩]
              else []
            .ok (true, st.emissions ++ drained ++ tipEms)

/-- The state at loop entry (benchmarks.py:354-395): the checkpoint list
is `list(bench_cfg.time_heights or [])`, `last_height_seen` is the height
reported at node init, everything else unset. -/
def ibdInit (cfg : IBDishBench) (startingHeight : Nat) : IbdState :=
  { checkpoints := cfg.time_heights.getD [],
    lastHeight := startingHeight,
    progress := none, startTime := none, timeNow := none,
    emissions := [], heightData := [] }

/-- One full `_IbdBench._run` execution over a list of observations:
the loop followed by the post-loop code.  `.ok none` means the
observation list was too short for the loop to exit. -/
def ibdRun (cfg : IBDishBench) (startingHeight : Nat) (obs : List Obs)
    (env : PostEnv) : Except String (Option (Bool × List Emission)) :=
  match ibdLoop cfg obs (ibdInit cfg startingHeight) with
  | .error e => .error e
  | .ok (_, .ranOut) => .ok none
  | .ok (st, ex) =>
      match ibdPost cfg st ex env with
      | .error e => .error e
      | .ok r => .ok (some r)

/-- The checkpoint heights of the timing (non-`.mem-usage`) checkpoint
measurements of an emission list, in emission order. -/
def cpHeights (ems : List Emission) : List Nat :=
  ems.filterMap fun e =>
    match e.name, e.isMem with
    | .checkpoint c, false => some c
    | _, _ => none

/-- The values of the timing checkpoint measurements, in emission order. -/
def cpVals (ems : List Emission) : List ℚ :=
  ems.filterMap fun e =>
    match e.name, e.isMem with
    | .checkpoint _, false => some e.value
    | _, _ => none

/-- Whether an emission list contains any reached-tip measurement. -/
def hasTipEmission (ems : List Emission) : Bool :=
  ems.any fun e => e.name = .tip

/-- Whether the per-target lookup of `resolve_targets` (git.py:176-195)
fails for a target: a hex ref must pass `git show`; otherwise
`rev-parse <remote>/<ref>` with fallback `rev-parse <ref>` must succeed. -/
def refBad (repo : GitRepo) (is_hex : String → Bool) (tar : Target) : Bool :=
  if is_hex tar.gitref then ¬ repo.showOk tar.gitref
  else
    match repo.resolveRef (tar.gitremote ++ "/" ++ tar.gitref) with
    | some _ => false
    | none =>
        match repo.resolveRef tar.gitref with
        | some _ => false
        | none => true

/-- The invariant the polling loop maintains about `start_time` and
`time_now` relative to the wall-clock readings still to come: a set
`start_time` is positive and below every upcoming reading, and a set
`time_now` is a non-negative elapsed value consistent with `start_time`. -/
def StInv (st : IbdState) (polls : List PollOb) : Prop :=
  (∀ s, st.startTime = some s → 0 < s ∧ ∀ q ∈ polls, s ≤ q.time) ∧
  (∀ v, st.timeNow = some v →
    0 ≤ v ∧ ∃ s, st.startTime = some s ∧ ∀ q ∈ polls, v + s ≤ q.time)

/-! ## Theorems -/

lemma resolveOne_snd_none_iff (repo : GitRepo) (is_hex : String → Bool)
    (head : String) (tar : Target) :
    (resolveOne repo is_hex head tar).2 = none ↔
      refBad repo is_hex tar = true := by
  unfold resolveOne refBad
  by_cases hhex : is_hex tar.gitref
  · simp only [hhex, if_true]
    by_cases hshow : repo.showOk tar.gitref <;> simp [hshow]
    by_cases hreb : tar.rebase <;> simp [hreb]
  · simp only [hhex, if_false, Bool.false_eq_true]
    cases h1 : repo.resolveRef (tar.gitremote ++ "/" ++ tar.gitref) with
    | some s =>
        simp only [h1]
        by_cases hreb : tar.rebase <;> simp [hreb]
    | none =>
        simp only [h1]
        cases h2 : repo.resolveRef tar.gitref with
        | some s =>
            simp only [h2]
            by_cases hreb : tar.rebase <;> simp [hreb]
        | none => simp [h2]

lemma resolveOthers_bad_filter (repo : GitRepo) (is_hex : String → Bool) :
    ∀ (ts : List Target) (head : String),
    (resolveOthers repo is_hex ts head).2.2 =
      ts.filter (fun tar => refBad repo is_hex tar) := by
  intro ts
  induction ts with
  | nil => intro head; simp [resolveOthers]
  | cons tar rest ih =>
      intro head
      unfold resolveOthers
      cases hone : resolveOne repo is_hex head tar with
      | mk head' res =>
          cases res with
          | some co =>
              have hb : refBad repo is_hex tar = false := by
                rcases hBad : refBad repo is_hex tar with _ | _
                · rfl
                · have := (resolveOne_snd_none_iff repo is_hex head tar).mpr hBad
                  rw [hone] at this
                  simp at this
              simp only [List.filter_cons, hb, ih head']
              simp
          | none =>
              have hb : refBad repo is_hex tar = true := by
                have := (resolveOne_snd_none_iff repo is_hex head tar).mp
                  (by rw [hone])
                exact this
              simp only [List.filter_cons, hb, ih head']
              simp

/-- C10. `Command.check_for_failure` raises exactly when the process has
no exit status yet (either `self.ps` is unset — the `assert` in the
`returncode` property — or `returncode` is still `None`); once the
process has exited with code `code` it returns `code != 0` and never
raises. -/
theorem check_for_failure_spec (c : Command) :
    ((∃ e, c.check_for_failure = .error e) ↔
      ∀ code : Int, c.ps ≠ some (some code)) ∧
    (∀ code : Int, c.ps = some (some code) →
      c.check_for_failure = .ok (code != 0)) := by
  rcases c with ⟨_ | (_ | code)⟩
  · constructor
    · constructor
      · intro _ code h
        cases h
      · intro _
        exact ⟨"AssertionError: self.ps", rfl⟩
    · intro code h
      cases h
  · constructor
    · constructor
      · intro _ code h
        simp at h
      · intro _
        exact ⟨"RuntimeError: cannot check for failure before completion", rfl⟩
    · intro code h
      simp at h
  · have hc : (Command.mk (some (some code))).check_for_failure =
      .ok (code != 0) := rfl
    constructor
    · constructor
      · rintro ⟨e, he⟩ code' hcontra
        rw [hc] at he
        cases he
      · intro h
        exact (h code rfl).elim
    · intro code' h
      cases h
      exact hc

/-- Witness for C10 at concrete commands: a finished process with exit
code 2 yields `.ok true`; a still-running process raises. -/
theorem check_for_failure_spec_witness :
    (Command.mk (some (some 2))).check_for_failure = .ok true ∧
    ∃ e, (Command.mk (some none)).check_for_failure = .error e := by
  constructor
  · have h := (check_for_failure_spec (Command.mk (some (some 2)))).2 2 rfl
    simpa using h
  · exact (check_for_failure_spec (Command.mk (some none))).1.mpr
      (by intro code h; simp at h)

lemma find_unused_port_ge (free : Nat → Bool) :
    ∀ (fuel start v : Nat), find_unused_port free fuel start = some v →
      start ≤ v := by
  intro fuel
  induction fuel with
  | zero => intro start v h; simp [find_unused_port] at h
  | succ n ih =>
      intro start v h
      unfold find_unused_port at h
      by_cases hf : free start
      · simp [hf] at h; omega
      · simp [hf] at h
        have := ih (start + 1) v h
        omega

/-- C9. When a `Node` is constructed with neither `port` nor `rpcport`,
the listening port is found first and the RPC-port search starts at
`port + 1` and only increments (bitcoind.py:64-65, 310-326), so whenever
both searches succeed the RPC port is strictly greater than the listening
port — in particular the two ports differ. -/
theorem node_auto_ports_distinct (free : Nat → Bool) (fuel : Nat)
    (p r : Nat) (h : nodeInitPorts free fuel none none = some (p, r)) :
    p < r := by
  unfold nodeInitPorts at h
  simp only [] at h
  cases h1 : find_unused_port free fuel 8888 with
  | none => rw [h1] at h; simp at h
  | some port =>
      rw [h1] at h
      simp only [] at h
      cases h2 : find_unused_port free fuel (port + 1) with
      | none => rw [h2] at h; simp at h
      | some rpc =>
          rw [h2] at h
          simp at h
          have := find_unused_port_ge free fuel (port + 1) rpc h2
          omega

/-- Witness for C9: with every port free, the node picks 8888 and 8889. -/
theorem node_auto_ports_distinct_witness :
    nodeInitPorts (fun _ => true) 1 none none = some (8888, 8889) ∧
    8888 < 8889 := by
  refine ⟨by decide, node_auto_ports_distinct (fun _ => true) 1 8888 8889 (by decide)⟩

/-- C6. `BuildCache.restore` returns `False` (touching nothing) when no
cache entry exists at the derived key; when an entry exists it removes the
working tree, copies the entry into it, then re-verifies the restored
binaries' reported versions against the checkout, returning `True` on
success and propagating the verification error — it neither returns
`False` nor `True` on a failed verification. -/
theorem restore_contract (gitco : GitCheckout) (env : BuildEnv) :
    (env.cacheEntryExists = false →
      BuildCache.restore gitco env = ([], .ok false)) ∧
    (env.cacheEntryExists = true → assert_version gitco env = .ok () →
      BuildCache.restore gitco env =
        ([.cdWorkdir, .rmRepoPath, .copyCacheToRepo, .cdRepoPath], .ok true)) ∧
    (∀ e, env.cacheEntryExists = true → assert_version gitco env = .error e →
      BuildCache.restore gitco env =
        ([.cdWorkdir, .rmRepoPath, .copyCacheToRepo], .error e)) := by
  refine ⟨fun hmiss => ?_, fun hhit hok => ?_, fun e hhit herr => ?_⟩ <;>
    simp [BuildCache.restore, *]

/-- Witness for C6 at concrete inputs: a missing entry returns false; an
entry whose binaries report a matching version restores; a mismatching
one propagates the error. -/
theorem restore_contract_witness :
    BuildCache.restore
        ⟨"mybranch", "origin", "abcdef1234", "m", "a", none⟩
        ⟨false, "x", "y"⟩ = ([], .ok false) ∧
    BuildCache.restore
        ⟨"mybranch", "origin", "abcdef1234", "m", "a", none⟩
        ⟨true, "Bitcoin Core daemon version v0.1-abcdef1",
         "Bitcoin Core RPC client version v0.1-abcdef1"⟩ =
      ([.cdWorkdir, .rmRepoPath, .copyCacheToRepo, .cdRepoPath], .ok true) ∧
    BuildCache.restore
        ⟨"mybranch", "origin", "abcdef1234", "m", "a", none⟩
        ⟨true, "Bitcoin Core daemon version v999",
         "Bitcoin Core RPC client version v999"⟩ =
      ([.cdWorkdir, .rmRepoPath, .copyCacheToRepo],
       .error "RuntimeError: bad checkout") := by
  refine ⟨(restore_contract _ _).1 rfl,
          (restore_contract _ _).2.1 rfl (by rfl),
          (restore_contract _ _).2.2 _ rfl (by rfl)⟩

/-- C2, counterexample to the claim as stated: for a concrete cache entry
whose restored binaries report a version containing neither the commit id
nor the ref, `BuildCache.restore` surfaces a `RuntimeError` to its caller
and performs no deletion of the cache entry (the only filesystem
operations are the cd/rm/copy of the restore itself), and the build step
propagates the error instead of falling back to a full build. -/
theorem restore_integrity_counterexample :
    BuildCache.restore
        ⟨"mybranch", "origin", "abcdef1234", "m", "a", none⟩
        ⟨true, "Bitcoin Core daemon version v999",
         "Bitcoin Core RPC client version v999"⟩ =
      ([.cdWorkdir, .rmRepoPath, .copyCacheToRepo],
       .error "RuntimeError: bad checkout") ∧
    FsOp.rmCacheEntry ∉
      (BuildCache.restore
        ⟨"mybranch", "origin", "abcdef1234", "m", "a", none⟩
        ⟨true, "Bitcoin Core daemon version v999",
         "Bitcoin Core RPC client version v999"⟩).1 ∧
    buildCacheStep true
        ⟨"mybranch", "origin", "abcdef1234", "m", "a", none⟩
        ⟨true, "Bitcoin Core daemon version v999",
         "Bitcoin Core RPC client version v999"⟩ =
      .error "RuntimeError: bad checkout" := by
  refine ⟨rfl, ?_, rfl⟩
  intro hmem
  rw [show (BuildCache.restore
        ⟨"mybranch", "origin", "abcdef1234", "m", "a", none⟩
        ⟨true, "Bitcoin Core daemon version v999",
         "Bitcoin Core RPC client version v999"⟩).1 =
      [FsOp.cdWorkdir, FsOp.rmRepoPath, FsOp.copyCacheToRepo] from rfl] at hmem
  simp at hmem

/-- C2 as amended: for every cache entry that exists but fails the
version-integrity verification, `BuildCache.restore` raises the
verification error to its caller (the entry is NOT deleted — no
`rmCacheEntry` operation is performed), and `BuildManager.build`
propagates that error instead of falling back to a full build. -/
theorem restore_integrity_failure_raises (gitco : GitCheckout)
    (env : BuildEnv) (e : String) (hhit : env.cacheEntryExists = true)
    (herr : assert_version gitco env = .error e) :
    BuildCache.restore gitco env =
      ([.cdWorkdir, .rmRepoPath, .copyCacheToRepo], .error e) ∧
    FsOp.rmCacheEntry ∉ (BuildCache.restore gitco env).1 ∧
    buildCacheStep true gitco env = .error e := by
  have h := (restore_contract gitco env).2.2 e hhit herr
  refine ⟨h, ?_, ?_⟩
  · rw [h]; simp
  · simp [buildCacheStep, h]

/-- Witness for C2's amended theorem at the concrete mismatching entry. -/
theorem restore_integrity_failure_witness :
    BuildCache.restore
        ⟨"mybranch", "origin", "abcdef1234", "m", "a", none⟩
        ⟨true, "Bitcoin Core daemon version v999",
         "Bitcoin Core RPC client version v999"⟩ =
      ([.cdWorkdir, .rmRepoPath, .copyCacheToRepo],
       .error "RuntimeError: bad checkout") ∧
    FsOp.rmCacheEntry ∉
      (BuildCache.restore
        ⟨"mybranch", "origin", "abcdef1234", "m", "a", none⟩
        ⟨true, "Bitcoin Core daemon version v999",
         "Bitcoin Core RPC client version v999"⟩).1 ∧
    buildCacheStep true
        ⟨"mybranch", "origin", "abcdef1234", "m", "a", none⟩
        ⟨true, "Bitcoin Core daemon version v999",
         "Bitcoin Core RPC client version v999"⟩ =
      .error "RuntimeError: bad checkout" :=
  restore_integrity_failure_raises _ _ _ rfl (by rfl)

/-- C7 (amended): for a batch containing no merge-base marker spec,
`resolve_targets` never raises: it returns the resolved checkouts
together with exactly the sub-list of targets whose ref lookup failed,
and an individual bad ref only lands that target in the returned
`bad_targets` list while resolution continues. -/
theorem resolve_targets_no_mergebase_never_raises (repo : GitRepo)
    (is_hex : String → Bool) (head0 : String) (targets : List Target)
    (hmb : ∀ tar ∈ targets, isMergebaseTarget tar = false) :
    ∃ cos headf, resolve_targets repo is_hex head0 targets =
      .ok (cos, targets.filter (fun tar => refBad repo is_hex tar), headf) := by
  have hfilter : targets.filter isMergebaseTarget = [] := by
    rw [List.filter_eq_nil_iff]
    intro a ha
    simp [hmb a ha]
  have hothers : targets.filter (fun tar => ¬ isMergebaseTarget tar) = targets := by
    rw [List.filter_eq_self]
    intro a ha
    simp [hmb a ha]
  have hbad := resolveOthers_bad_filter repo is_hex targets repo.mainline
  rcases hro : resolveOthers repo is_hex targets repo.mainline with ⟨headf, cos, bads⟩
  rw [hro] at hbad
  simp only at hbad
  refine ⟨cos, headf, ?_⟩
  unfold resolve_targets
  rw [hfilter, hothers]
  simp only [hro, hbad]

/-- Witness for C7's amended theorem: a batch of one resolvable and one
unresolvable ref returns the good checkout and the bad target, raising
nothing. -/
theorem resolve_targets_no_mergebase_witness :
    ∃ cos headf,
      resolve_targets
        { mainline := "M0", resolveRef := fun r => if r = "origin/good" then some "G0" else none,
          showOk := fun _ => false, commitMsg := fun s => s,
          mergeBase := fun _ => none, rebaseNewHead := fun h => h,
          rebaseOk := fun _ => true }
        (fun _ => false) "H0"
        [⟨"good", "origin", some "a", false⟩, ⟨"nope", "origin", some "b", false⟩] =
      .ok (cos, [⟨"nope", "origin", some "b", false⟩], headf) := by
  have h := resolve_targets_no_mergebase_never_raises
    { mainline := "M0", resolveRef := fun r => if r = "origin/good" then some "G0" else none,
      showOk := fun _ => false, commitMsg := fun s => s,
      mergeBase := fun _ => none, rebaseNewHead := fun h => h,
      rebaseOk := fun _ => true }
    (fun _ => false) "H0"
    [⟨"good", "origin", some "a", false⟩, ⟨"nope", "origin", some "b", false⟩]
    (by intro tar htar; fin_cases htar <;> rfl)
  obtain ⟨cos, headf, h⟩ := h
  exact ⟨cos, headf, by rw [h]; rfl⟩

/-- C7, counterexample to the claim as stated: a batch holding the
merge-base marker spec plus one spec with an unresolvable ref makes the
whole resolution raise `ValueError` (git.py:154-162, 235-244) instead of
returning that spec in the bad-targets list. -/
theorem resolve_targets_mergebase_raises_counterexample :
    resolve_targets
      { mainline := "M0", resolveRef := fun _ => none,
        showOk := fun _ => false, commitMsg := fun s => s,
        mergeBase := fun _ => none, rebaseNewHead := fun h => h,
        rebaseOk := fun _ => true }
      (fun _ => false) "H0"
      [⟨"$mergebase", "origin", none, false⟩, ⟨"nope", "origin", none, false⟩] =
    .error "ValueError: could not get merge-base" := by
  rfl

/-- C8. Resolving the same unmodified repository (the same `GitRepo`
lookup functions) twice with the same specs yields identical results —
checkouts (hence identical `sha` values, also for rebase specs), bad
targets, and final `HEAD`: the entry `git reset --hard origin/master`
(git.py:134) makes the outcome independent of the `HEAD` the first call
left behind. -/
theorem resolve_targets_idempotent (repo : GitRepo)
    (is_hex : String → Bool) (head0 : String) (targets : List Target)
    (cos : List GitCheckout) (bads : List Target) (hd : String)
    (h : resolve_targets repo is_hex head0 targets = .ok (cos, bads, hd)) :
    resolve_targets repo is_hex hd targets = .ok (cos, bads, hd) := by
  have hind : resolve_targets repo is_hex hd targets
      = resolve_targets repo is_hex head0 targets := rfl
  rw [hind, h]

/-- Witness for C8 on a rebase-requesting spec: the second resolution,
started from the `HEAD` the first one left, returns the same checkout. -/
theorem resolve_targets_idempotent_witness :
    resolve_targets
      { mainline := "M0", resolveRef := fun _ => none,
        showOk := fun r => r = "deadbeef", commitMsg := fun s => s,
        mergeBase := fun _ => none, rebaseNewHead := fun h => h,
        rebaseOk := fun _ => true }
      (fun s => s = "deadbeef") "M0"
      [⟨"deadbeef", "origin", some "t", true⟩] =
    .ok ([⟨"deadbeef", "origin", "M0", "M0", "t", some "deadbeef"⟩], [], "M0") :=
  resolve_targets_idempotent
    { mainline := "M0", resolveRef := fun _ => none,
      showOk := fun r => r = "deadbeef", commitMsg := fun s => s,
      mergeBase := fun _ => none, rebaseNewHead := fun h => h,
      rebaseOk := fun _ => true }
    (fun s => s = "deadbeef") "SOMEWHERE-ELSE"
    [⟨"deadbeef", "origin", some "t", true⟩]
    [⟨"deadbeef", "origin", "M0", "M0", "t", some "deadbeef"⟩] [] "M0"
    (by rfl)

/-- C3, evaluated at the failing input.  A spec with ref `deadbeef` (a
valid commit distinct from the mainline tip `M0`) and the rebase flag
set.  First conjunct (repository where the rebase command succeeds as
git's up-to-date no-op, since `HEAD` is still the mainline tip that
git.py:134 reset to): resolution returns sha `M0` — the mainline tip,
not any rebase of `deadbeef`, which was never checked out — with
`pre_rebase_sha = deadbeef`.  Second conjunct (repository where the
rebase command fails and leaves `HEAD` at `MID-REBASE`): resolution
still returns `.ok`, so a failing rebase is silently ignored
(`sh.run` without `check=True`, git.py:206) instead of failing the
resolution. -/
theorem resolve_targets_rebase_divergence :
    (resolve_targets
      { mainline := "M0", resolveRef := fun _ => none,
        showOk := fun r => r = "deadbeef", commitMsg := fun s => s,
        mergeBase := fun _ => none, rebaseNewHead := fun h => h,
        rebaseOk := fun _ => true }
      (fun s => s = "deadbeef") "H0"
      [⟨"deadbeef", "origin", some "t", true⟩] =
    .ok ([⟨"deadbeef", "origin", "M0", "M0", "t", some "deadbeef"⟩], [], "M0")) ∧
    (resolve_targets
      { mainline := "M0", resolveRef := fun _ => none,
        showOk := fun r => r = "deadbeef", commitMsg := fun s => s,
        mergeBase := fun _ => none, rebaseNewHead := fun _ => "MID-REBASE",
        rebaseOk := fun _ => false }
      (fun s => s = "deadbeef") "H0"
      [⟨"deadbeef", "origin", some "t", true⟩] =
    .ok ([⟨"deadbeef", "origin", "MID-REBASE", "MID-REBASE", "t",
          some "deadbeef"⟩], [], "MID-REBASE")) :=
  ⟨rfl, rfl⟩

/-! ### Lemmas about the IBD loop -/

lemma consume_cons_le {c h : Nat} (t : List Nat) (hc : c ≤ h) :
    consumeCheckpoints (c :: t) h =
      (c :: (consumeCheckpoints t h).1, (consumeCheckpoints t h).2) := by
  rcases hx : consumeCheckpoints t h with ⟨p, l⟩
  simp only [consumeCheckpoints, hx, if_pos hc]

lemma consume_cons_gt {c h : Nat} (t : List Nat) (hc : ¬ c ≤ h) :
    consumeCheckpoints (c :: t) h = ([], c :: t) := by
  unfold consumeCheckpoints
  rw [if_neg hc]

lemma consumeCheckpoints_eq_takeWhile_dropWhile (h : Nat) :
    ∀ cps : List Nat,
      consumeCheckpoints cps h =
        (cps.takeWhile (fun c => c ≤ h), cps.dropWhile (fun c => c ≤ h)) := by
  intro cps
  induction cps with
  | nil => rfl
  | cons c t ih =>
      by_cases hc : c ≤ h
      · rw [consume_cons_le t hc, ih]
        simp [List.takeWhile_cons, List.dropWhile_cons, hc]
      · rw [consume_cons_gt t hc]
        simp [List.takeWhile_cons, List.dropWhile_cons, hc]

lemma consumeCheckpoints_decompose {h1 h2 : Nat} (hle : h1 ≤ h2) :
    ∀ cps : List Nat,
      consumeCheckpoints cps h2 =
        ((consumeCheckpoints cps h1).1 ++
           (consumeCheckpoints (consumeCheckpoints cps h1).2 h2).1,
         (consumeCheckpoints (consumeCheckpoints cps h1).2 h2).2) := by
  intro cps
  induction cps with
  | nil => rfl
  | cons c t ih =>
      by_cases hc1 : c ≤ h1
      · have hc2 : c ≤ h2 := le_trans hc1 hle
        rw [consume_cons_le t hc2, consume_cons_le t hc1, ih]
        simp
      · rw [consume_cons_gt t hc1]
        simp

lemma cpHeights_append (a b : List Emission) :
    cpHeights (a ++ b) = cpHeights a ++ cpHeights b := by
  simp [cpHeights, List.filterMap_append]

lemma cpVals_append (a b : List Emission) :
    cpVals (a ++ b) = cpVals a ++ cpVals b := by
  simp [cpVals, List.filterMap_append]

lemma hasTipEmission_append (a b : List Emission) :
    hasTipEmission (a ++ b) = (hasTipEmission a || hasTipEmission b) := by
  simp [hasTipEmission, List.any_append]

lemma checkpointEmissions_cons (c : Nat) (rest : List Nat) (tval mval : ℚ) :
    checkpointEmissions (c :: rest) tval mval =
      ⟨.checkpoint c, false, tval⟩ :: ⟨.checkpoint c, true, mval⟩ ::
        checkpointEmissions rest tval mval := by
  simp [checkpointEmissions]

lemma cpHeights_checkpointEmissions (popped : List Nat) (tval mval : ℚ) :
    cpHeights (checkpointEmissions popped tval mval) = popped := by
  induction popped with
  | nil => rfl
  | cons c rest ih =>
      rw [checkpointEmissions_cons]
      simp only [cpHeights, List.filterMap_cons] at ih ⊢
      simp [ih]

lemma cpVals_checkpointEmissions (popped : List Nat) (tval mval : ℚ) :
    cpVals (checkpointEmissions popped tval mval) =
      popped.map (fun _ => tval) := by
  induction popped with
  | nil => rfl
  | cons c rest ih =>
      rw [checkpointEmissions_cons]
      simp only [cpVals, List.filterMap_cons] at ih ⊢
      simp [ih]

lemma hasTipEmission_checkpointEmissions (popped : List Nat) (tval mval : ℚ) :
    hasTipEmission (checkpointEmissions popped tval mval) = false := by
  induction popped with
  | nil => rfl
  | cons c rest ih =>
      rw [checkpointEmissions_cons]
      simp only [hasTipEmission, List.any_cons] at ih ⊢
      simp [ih]

lemma pyOrF_some_nonneg {x : ℚ} (hx : 0 ≤ x) : pyOrF (some x) 0 = x := by
  have := hx
  unfold pyOrF
  by_cases h : x = 0
  · simp [h]
  · simp [h]

/-- C4. If the node process dies with a non-zero exit code while the
polling loop is still running (the loop exits through the
`returncode is not None` break), the run finalizes as a failure: either
the post-loop code raises (when death happened before any measurement
epoch began, `start_time` is still `None` and `final_time` raises
`TypeError`), or it returns `False` with exactly the emissions already
made during polling — no checkpoint measurement is emitted after the
failure is detected. -/
theorem ibd_nonzero_exit_fails_no_emissions (cfg : IBDishBench) (h0 : Nat)
    (obs : List Obs) (env : PostEnv) (st : IbdState) (c : Int)
    (hloop : ibdLoop cfg obs (ibdInit cfg h0) = .ok (st, .died c))
    (hc : c ≠ 0) :
    ibdRun cfg h0 obs env = .error "TypeError: float minus NoneType" ∨
    ibdRun cfg h0 obs env = .ok (some (false, st.emissions)) := by
  have hrun : ibdRun cfg h0 obs env =
      match ibdPost cfg st (.died c) env with
      | .error e => .error e
      | .ok r => .ok (some r) := by
    unfold ibdRun
    rw [hloop]
  rw [hrun]
  unfold ibdPost
  cases hst : st.startTime with
  | none => left; rfl
  | some stt =>
      right
      have hcb : (c != 0) = true := by simpa using hc
      simp [hcb]

/-- Witness for C4: a node that passes checkpoint 100 and then dies with
exit code 1 before reaching end height 250 yields a failed run whose
emissions are exactly the two (timing + memory) checkpoint-100
measurements flushed before the death. -/
theorem ibd_nonzero_exit_witness :
    ibdRun ⟨0, some 250, some [100, 200]⟩ 0
        [mkObs ⟨120, 1/2, 10, 5⟩, ⟨some 1, none, 11, 5⟩] ⟨13, 0, false, 6⟩ =
      .error "TypeError: float minus NoneType" ∨
    ibdRun ⟨0, some 250, some [100, 200]⟩ 0
        [mkObs ⟨120, 1/2, 10, 5⟩, ⟨some 1, none, 11, 5⟩] ⟨13, 0, false, 6⟩ =
      .ok (some (false,
        [⟨.checkpoint 100, false, 0⟩, ⟨.checkpoint 100, true, 5⟩])) := by
  refine ibd_nonzero_exit_fails_no_emissions _ 0 _ _
    { checkpoints := [200], lastHeight := 120, progress := some (1/2),
      startTime := some 10, timeNow := some 0,
      emissions := [⟨.checkpoint 100, false, 0⟩, ⟨.checkpoint 100, true, 5⟩],
      heightData := [(120, 0)] } 1 ?_ (by decide)
  with_unfolding_all rfl

lemma pyOrF_none (b : ℚ) : pyOrF none b = b := rfl

lemma pyOrF_some_ne {x : ℚ} (b : ℚ) (h : x ≠ 0) : pyOrF (some x) b = x := by
  unfold pyOrF
  simp [h]

lemma ibdLoop_nil (cfg : IBDishBench) (st : IbdState) :
    ibdLoop cfg [] st = .ok (st, .ranOut) := rfl

lemma ibdLoop_cons_break (cfg : IBDishBench) (q : PollOb) (l : List Obs)
    (st : IbdState)
    (hbr : (endReached cfg q.height || decide (q.progress > 9999 / 10000)) = true) :
    ibdLoop cfg (mkObs q :: l) st =
      .ok ({ st with
              lastHeight := q.height, progress := some q.progress,
              startTime := some (pyOrF st.startTime q.time) }, .reachedEnd) := by
  conv_lhs => unfold ibdLoop
  simp [mkObs, hbr]

lemma ibdLoop_cons_skip (cfg : IBDishBench) (q : PollOb) (l : List Obs)
    (st : IbdState)
    (hbr : (endReached cfg q.height || decide (q.progress > 9999 / 10000)) = false)
    (hlow : q.height < cfg.start_height) :
    ibdLoop cfg (mkObs q :: l) st =
      ibdLoop cfg l { st with lastHeight := q.height,
                              progress := some q.progress } := by
  conv_lhs => unfold ibdLoop
  simp [mkObs, hbr, hlow]

lemma ibdLoop_cons_body (cfg : IBDishBench) (q : PollOb) (l : List Obs)
    (st : IbdState)
    (hbr : (endReached cfg q.height || decide (q.progress > 9999 / 10000)) = false)
    (hlow : ¬ q.height < cfg.start_height) :
    ibdLoop cfg (mkObs q :: l) st =
      ibdLoop cfg l
        { st with
          lastHeight := q.height, progress := some q.progress,
          startTime := some (pyOrF st.startTime q.time),
          timeNow := some (q.time - pyOrF st.startTime q.time),
          checkpoints := (consumeCheckpoints st.checkpoints q.height).2,
          emissions := st.emissions ++
            checkpointEmissions (consumeCheckpoints st.checkpoints q.height).1
              (q.time - pyOrF st.startTime q.time) q.mem,
          heightData := st.heightData ++
            [(q.height, q.time - pyOrF st.startTime q.time)] } := by
  rcases hx : consumeCheckpoints st.checkpoints q.height with ⟨popped, left⟩
  conv_lhs => unfold ibdLoop
  simp [mkObs, hbr, hlow, hx]

lemma StInv_tail {st : IbdState} {q : PollOb} {rest : List PollOb}
    (h : StInv st (q :: rest)) : StInv st rest := by
  obtain ⟨h1, h2⟩ := h
  constructor
  · intro s hs
    obtain ⟨hpos, hle⟩ := h1 s hs
    exact ⟨hpos, fun r hr => hle r (List.mem_cons_of_mem _ hr)⟩
  · intro v hv
    obtain ⟨h0, s, hs, hle⟩ := h2 v hv
    exact ⟨h0, s, hs, fun r hr => hle r (List.mem_cons_of_mem _ hr)⟩

lemma StInv_init (cfg : IBDishBench) (h0 : Nat) (polls : List PollOb) :
    StInv (ibdInit cfg h0) polls := by
  constructor
  · intro s hs
    cases hs
  · intro v hv
    cases hv

/-- Behaviour of the polling loop over a trace of live polls with
non-decreasing heights and non-decreasing positive wall-clock readings.
The loop only appends checkpoint (never tip) measurements; the total
checkpoint consumption at the final height decomposes into the popped
heights plus the leftover prefix; the emitted timing values are
non-decreasing, bounded between the old and new `time_now`; the final
height comes from the trace; and a `reachedEnd` exit leaves `start_time`
and `progress` set. -/
lemma pairwise_le_const_map {α : Type} (l : List α) (c : ℚ) :
    List.Pairwise (· ≤ ·) (l.map fun _ => c) := by
  induction l with
  | nil => simp
  | cons a t ih =>
      rw [List.map_cons, List.pairwise_cons]
      refine ⟨?_, ih⟩
      intro b hb
      rw [List.mem_map] at hb
      obtain ⟨_, _, hbe⟩ := hb
      rw [← hbe]

theorem ibdLoop_spec (cfg : IBDishBench) :
    ∀ (polls : List PollOb) (st st' : IbdState) (ex : LoopExit),
    List.Pairwise (· ≤ ·) (polls.map PollOb.height) →
    List.Pairwise (· ≤ ·) (polls.map PollOb.time) →
    (∀ q ∈ polls, 0 < q.time) →
    StInv st polls →
    ibdLoop cfg (polls.map mkObs) st = .ok (st', ex) →
    ∃ ems : List Emission,
      st'.emissions = st.emissions ++ ems ∧
      hasTipEmission ems = false ∧
      consumeCheckpoints st.checkpoints st'.lastHeight =
        (cpHeights ems ++ (consumeCheckpoints st'.checkpoints st'.lastHeight).1,
         (consumeCheckpoints st'.checkpoints st'.lastHeight).2) ∧
      List.Pairwise (· ≤ ·) (cpVals ems) ∧
      (∀ v ∈ cpVals ems, pyOrF st.timeNow 0 ≤ v ∧ v ≤ pyOrF st'.timeNow 0) ∧
      pyOrF st.timeNow 0 ≤ pyOrF st'.timeNow 0 ∧
      (st'.lastHeight = st.lastHeight ∨ st'.lastHeight ∈ polls.map PollOb.height) ∧
      (ex = .reachedEnd →
        (∃ s, st'.startTime = some s) ∧ ∃ p, st'.progress = some p) ∧
      (∀ c : Int, ex ≠ .died c) := by
  intro polls
  induction polls with
  | nil =>
      intro st st' ex _ _ _ _ hrun
      rw [List.map_nil, ibdLoop_nil] at hrun
      cases hrun
      refine ⟨[], by simp, rfl, by simp [cpHeights], by simp [cpVals],
              by simp [cpVals], le_refl _, Or.inl rfl, ?_, ?_⟩
      · intro hre
        cases hre
      · intro c h
        cases h
  | cons q rest ih =>
      intro st st' ex hH hT hTpos hInv hrun
      rw [List.map_cons] at hrun
      rw [List.map_cons, List.pairwise_cons] at hH hT
      obtain ⟨hHq, hH'⟩ := hH
      obtain ⟨hTq, hT'⟩ := hT
      have hTq0 : 0 < q.time := hTpos q (List.mem_cons_self _ _)
      have hTpos' : ∀ r ∈ rest, 0 < r.time :=
        fun r hr => hTpos r (List.mem_cons_of_mem _ hr)
      obtain ⟨hInvS, hInvT⟩ := hInv
      by_cases hbr :
          (endReached cfg q.height || decide (q.progress > 9999 / 10000)) = true
      · -- break: the end condition fired on this poll
        rw [ibdLoop_cons_break cfg q _ st hbr] at hrun
        cases hrun
        refine ⟨[], by simp, rfl, by simp [cpHeights], by simp [cpVals],
                by simp [cpVals], le_refl _, Or.inr (by simp), ?_, ?_⟩
        · intro _
          exact ⟨⟨pyOrF st.startTime q.time, rfl⟩, ⟨q.progress, rfl⟩⟩
        · intro c h
          cases h
      · have hbrf :
            (endReached cfg q.height || decide (q.progress > 9999 / 10000)) = false := by
          simpa using hbr
        -- facts about the new start time
        have hstt_cases : (st.startTime = none ∧ pyOrF st.startTime q.time = q.time) ∨
            (∃ s, st.startTime = some s ∧ pyOrF st.startTime q.time = s ∧
              0 < s ∧ ∀ r ∈ (q :: rest), s ≤ r.time) := by
          cases hs : st.startTime with
          | none => exact Or.inl ⟨rfl, by rw [pyOrF_none]⟩
          | some s =>
              obtain ⟨hspos, hsle⟩ := hInvS s hs
              exact Or.inr ⟨s, rfl, pyOrF_some_ne _ (ne_of_gt hspos), hspos, hsle⟩
        have h0stt : 0 < pyOrF st.startTime q.time := by
          rcases hstt_cases with ⟨_, heq⟩ | ⟨s, _, heq, hpos, _⟩
          · rw [heq]; exact hTq0
          · rw [heq]; exact hpos
        have hsttq : pyOrF st.startTime q.time ≤ q.time := by
          rcases hstt_cases with ⟨_, heq⟩ | ⟨s, _, heq, _, hle⟩
          · rw [heq]
          · rw [heq]; exact hle q (List.mem_cons_self _ _)
        have hsttrest : ∀ r ∈ rest, pyOrF st.startTime q.time ≤ r.time := by
          intro r hr
          rcases hstt_cases with ⟨_, heq⟩ | ⟨s, _, heq, _, hle⟩
          · rw [heq]; exact hTq r.time (List.mem_map_of_mem _ hr)
          · rw [heq]; exact hle r (List.mem_cons_of_mem _ hr)
        by_cases hlow : q.height < cfg.start_height
        · -- skip: below the configured start height, nothing recorded
          rw [ibdLoop_cons_skip cfg q _ st hbrf hlow] at hrun
          have hInv1 : StInv { st with
              lastHeight := q.height,
              progress := some q.progress } rest := by
            constructor
            · intro s hs
              obtain ⟨hpos, hle⟩ := hInvS s hs
              exact ⟨hpos, fun r hr => hle r (List.mem_cons_of_mem _ hr)⟩
            · intro v hv
              obtain ⟨h0, s, hs, hle⟩ := hInvT v hv
              exact ⟨h0, s, hs, fun r hr => hle r (List.mem_cons_of_mem _ hr)⟩
          obtain ⟨ems, he, htip, hcons, hpw, hbound, hmono, hlh, hre, hdied⟩ :=
            ih _ st' ex hH' hT' hTpos' hInv1 hrun
          refine ⟨ems, he, htip, hcons, hpw, hbound, hmono, ?_, hre, hdied⟩
          rcases hlh with h | h
          · exact Or.inr (by rw [h]; simp)
          · exact Or.inr (by simp [h])
        · -- body: a measurement iteration
          rw [ibdLoop_cons_body cfg q _ st hbrf hlow] at hrun
          have htn0 : 0 ≤ q.time - pyOrF st.startTime q.time := by linarith
          have hInv2 : StInv { st with
              lastHeight := q.height, progress := some q.progress,
              startTime := some (pyOrF st.startTime q.time),
              timeNow := some (q.time - pyOrF st.startTime q.time),
              checkpoints := (consumeCheckpoints st.checkpoints q.height).2,
              emissions := st.emissions ++
                checkpointEmissions (consumeCheckpoints st.checkpoints q.height).1
                  (q.time - pyOrF st.startTime q.time) q.mem,
              heightData := st.heightData ++
                [(q.height, q.time - pyOrF st.startTime q.time)] } rest := by
            constructor
            · intro s hs
              have hs' : pyOrF st.startTime q.time = s := by
                simpa using hs
              rw [← hs']
              exact ⟨h0stt, hsttrest⟩
            · intro v hv
              have hv' : q.time - pyOrF st.startTime q.time = v := by
                simpa using hv
              rw [← hv']
              refine ⟨htn0, pyOrF st.startTime q.time, by simp, ?_⟩
              intro r hr
              have : q.time ≤ r.time := hTq r.time (List.mem_map_of_mem _ hr)
              linarith
          obtain ⟨ems', he, htip, hcons, hpw, hbound, hmono, hlh, hre, hdied⟩ :=
            ih _ st' ex hH' hT' hTpos' hInv2 hrun
          simp only at he htip hcons hpw hbound hmono hlh hre hdied
          have hpyt2 : pyOrF (some (q.time - pyOrF st.startTime q.time)) 0 =
              q.time - pyOrF st.startTime q.time := pyOrF_some_nonneg htn0
          rw [hpyt2] at hbound hmono
          have hlow0 : pyOrF st.timeNow 0 ≤ q.time - pyOrF st.startTime q.time := by
            cases hv : st.timeNow with
            | none => rw [pyOrF_none]; exact htn0
            | some w =>
                obtain ⟨hw0, s, hss, hwle⟩ := hInvT w hv
                rw [pyOrF_some_nonneg hw0]
                have hstteq : pyOrF st.startTime q.time = s := by
                  rcases hstt_cases with ⟨hn, _⟩ | ⟨s', hs', heq, _, _⟩
                  · rw [hn] at hss; cases hss
                  · rw [hs'] at hss
                    cases hss
                    exact heq
                have := hwle q (List.mem_cons_self _ _)
                rw [hstteq]
                linarith
          have hhle : q.height ≤ st'.lastHeight := by
            rcases hlh with h | h
            · rw [h]
            · exact hHq _ h
          refine ⟨checkpointEmissions (consumeCheckpoints st.checkpoints q.height).1
              (q.time - pyOrF st.startTime q.time) q.mem ++ ems',
            ?_, ?_, ?_, ?_, ?_, ?_, ?_, hre, hdied⟩
          · rw [he]
            simp [List.append_assoc]
          · rw [hasTipEmission_append, hasTipEmission_checkpointEmissions, htip]
            rfl
          · rw [consumeCheckpoints_decompose hhle st.checkpoints, hcons]
            simp [cpHeights_append, cpHeights_checkpointEmissions,
              List.append_assoc]
          · rw [cpVals_append, cpVals_checkpointEmissions]
            rw [List.pairwise_append]
            refine ⟨?_, hpw, ?_⟩
            · exact pairwise_le_const_map _ _
            · intro a ha b hb
              rw [List.mem_map] at ha
              obtain ⟨_, _, haeq⟩ := ha
              subst haeq
              exact (hbound b hb).1
          · intro v hv
            rw [cpVals_append, cpVals_checkpointEmissions, List.mem_append] at hv
            rcases hv with hv | hv
            · rw [List.mem_map] at hv
              obtain ⟨_, _, hveq⟩ := hv
              subst hveq
              exact ⟨hlow0, hmono⟩
            · obtain ⟨hlo, hhi⟩ := hbound v hv
              exact ⟨le_trans hlow0 hlo, hhi⟩
          · exact le_trans hlow0 hmono
          · rcases hlh with h | h
            · exact Or.inr (by rw [h]; simp)
            · exact Or.inr (by simp [h])

/-- A successfully completed IBD run (loop exits through the end
condition, clean shutdown, no disk-low marker) emits, as its timing
checkpoint measurements, exactly the configured checkpoints up to the
final height, in configuration order, with non-decreasing values — and
no tip measurement whenever an end height is configured. -/
theorem ibdRun_success_spec (cfg : IBDishBench) (h0 : Nat)
    (polls : List PollOb) (env : PostEnv) (st' : IbdState)
    (hH : List.Pairwise (· ≤ ·) (polls.map PollOb.height))
    (hT : List.Pairwise (· ≤ ·) (polls.map PollOb.time))
    (hTpos : ∀ q ∈ polls, 0 < q.time)
    (hloop : ibdLoop cfg (polls.map mkObs) (ibdInit cfg h0) =
      .ok (st', .reachedEnd))
    (hret : env.stopRetcode = 0) (hdisk : env.diskLow = false) :
    ∃ ems : List Emission,
      ibdRun cfg h0 (polls.map mkObs) env = .ok (some (true, ems)) ∧
      cpHeights ems =
        (cfg.time_heights.getD []).takeWhile (fun c => c ≤ st'.lastHeight) ∧
      List.Pairwise (· ≤ ·) (cpVals ems) ∧
      (endTruthy cfg = true → hasTipEmission ems = false) := by
  obtain ⟨ems0, he, htip0, hcons, hpw, hbound, hmono, _, hre, _⟩ :=
    ibdLoop_spec cfg polls (ibdInit cfg h0) st' .reachedEnd hH hT hTpos
      (StInv_init cfg h0 polls) hloop
  obtain ⟨⟨s, hs⟩, p, hp⟩ := hre rfl
  simp only [ibdInit] at he hcons hbound
  rw [List.nil_append] at he
  rcases hx : consumeCheckpoints st'.checkpoints st'.lastHeight with ⟨p2, r2⟩
  rw [hx] at hcons
  have hpost : ibdPost cfg st' .reachedEnd env = .ok (true,
      st'.emissions ++
        checkpointEmissions p2 (pyOrF st'.timeNow 0) env.finalMem ++
        (if (decide (p > 999/1000) && !endTruthy cfg) = true then
          [⟨.tip, false, env.timeAfterLoop - s⟩, ⟨.tip, true, env.finalMem⟩]
         else ([] : List Emission))) := by
    unfold ibdPost
    rw [hs]
    dsimp only
    rw [hret, hdisk, hx, hp]
    dsimp only
    rfl
  have hrun : ibdRun cfg h0 (polls.map mkObs) env =
      match ibdPost cfg st' .reachedEnd env with
      | .error e => .error e
      | .ok r => .ok (some r) := by
    unfold ibdRun
    rw [hloop]
  rw [hpost] at hrun
  rw [he] at hrun
  have h2h : cpHeights (if (decide (p > 999/1000) && !endTruthy cfg) = true then
        [⟨.tip, false, env.timeAfterLoop - s⟩, ⟨.tip, true, env.finalMem⟩]
       else ([] : List Emission)) = [] := by
    by_cases hc : (decide (p > 999/1000) && !endTruthy cfg) = true
    · rw [if_pos hc]; rfl
    · rw [if_neg hc]; rfl
  have h2v : cpVals (if (decide (p > 999/1000) && !endTruthy cfg) = true then
        [⟨.tip, false, env.timeAfterLoop - s⟩, ⟨.tip, true, env.finalMem⟩]
       else ([] : List Emission)) = [] := by
    by_cases hc : (decide (p > 999/1000) && !endTruthy cfg) = true
    · rw [if_pos hc]; rfl
    · rw [if_neg hc]; rfl
  refine ⟨_, hrun, ?_, ?_, ?_⟩
  · -- checkpoint heights are the consumed prefix
    rw [cpHeights_append, cpHeights_append, cpHeights_checkpointEmissions,
      h2h, List.append_nil]
    have htw := consumeCheckpoints_eq_takeWhile_dropWhile st'.lastHeight
      (cfg.time_heights.getD [])
    rw [hcons] at htw
    have := congrArg Prod.fst htw
    simpa using this
  · -- timing values are non-decreasing
    rw [cpVals_append, cpVals_append, cpVals_checkpointEmissions,
      h2v, List.append_nil, List.pairwise_append]
    refine ⟨hpw, pairwise_le_const_map _ _, ?_⟩
    intro a ha b hb
    rw [List.mem_map] at hb
    obtain ⟨_, _, hbe⟩ := hb
    rw [← hbe]
    exact (hbound a ha).2
  · -- no tip measurement when an end height is configured
    intro hend
    rw [hasTipEmission_append, hasTipEmission_append,
      hasTipEmission_checkpointEmissions, hend]
    simp only [Bool.not_true, Bool.and_false, Bool.false_eq_true, if_false]
    rw [htip0]
    rfl

/-- C1 (amended).  An IBD benchmark configured with checkpoints
`[100, 200]` and end height `250`, run against a node whose polled
heights are non-decreasing and reach `250` (ending the loop through the
height condition), with a clean shutdown, emits exactly two timing
checkpoint measurements — at 100 and then at 200, each paired with a
`.mem-usage` measurement — with non-decreasing elapsed values, and **no**
final/tip measurement: the reached-tip measurement is only emitted when
no explicit end height is configured (benchmarks.py:528). -/
theorem ibd_checkpoints_and_no_tip_with_end_height
    (polls : List PollOb) (env : PostEnv) (st' : IbdState)
    (hH : List.Pairwise (· ≤ ·) (polls.map PollOb.height))
    (hT : List.Pairwise (· ≤ ·) (polls.map PollOb.time))
    (hTpos : ∀ q ∈ polls, 0 < q.time)
    (hloop : ibdLoop ⟨0, some 250, some [100, 200]⟩ (polls.map mkObs)
      (ibdInit ⟨0, some 250, some [100, 200]⟩ 0) = .ok (st', .reachedEnd))
    (hlh : 250 ≤ st'.lastHeight)
    (hret : env.stopRetcode = 0) (hdisk : env.diskLow = false) :
    ∃ ems : List Emission,
      ibdRun ⟨0, some 250, some [100, 200]⟩ 0 (polls.map mkObs) env =
        .ok (some (true, ems)) ∧
      cpHeights ems = [100, 200] ∧
      List.Pairwise (· ≤ ·) (cpVals ems) ∧
      hasTipEmission ems = false := by
  obtain ⟨ems, hrun, hcp, hpw, htip⟩ :=
    ibdRun_success_spec ⟨0, some 250, some [100, 200]⟩ 0 polls env st'
      hH hT hTpos hloop hret hdisk
  refine ⟨ems, hrun, ?_, hpw, htip rfl⟩
  rw [hcp]
  have h100 : (100 ≤ st'.lastHeight) := by omega
  have h200 : (200 ≤ st'.lastHeight) := by omega
  simp [List.takeWhile_cons, h100, h200]

/-- Witness for C1's amended theorem at a concrete monotone trace
(heights 120, 210, 250). -/
theorem ibd_checkpoints_and_no_tip_witness :
    ∃ ems : List Emission,
      ibdRun ⟨0, some 250, some [100, 200]⟩ 0
          ([⟨120, 1/2, 10, 5⟩, ⟨210, 1/2, 11, 5⟩,
            ⟨250, 1/2, 12, 5⟩].map mkObs) ⟨13, 0, false, 6⟩ =
        .ok (some (true, ems)) ∧
      cpHeights ems = [100, 200] ∧
      List.Pairwise (· ≤ ·) (cpVals ems) ∧
      hasTipEmission ems = false := by
  refine ibd_checkpoints_and_no_tip_with_end_height
    [⟨120, 1/2, 10, 5⟩, ⟨210, 1/2, 11, 5⟩, ⟨250, 1/2, 12, 5⟩]
    ⟨13, 0, false, 6⟩
    { checkpoints := [], lastHeight := 250, progress := some (1/2),
      startTime := some 10, timeNow := some 1,
      emissions := [⟨.checkpoint 100, false, 0⟩, ⟨.checkpoint 100, true, 5⟩,
                    ⟨.checkpoint 200, false, 1⟩, ⟨.checkpoint 200, true, 5⟩],
      heightData := [(120, 0), (210, 1)] }
    (by decide) (by with_unfolding_all decide) (by with_unfolding_all decide)
    (by with_unfolding_all rfl) (by decide) rfl rfl

/-- C1, counterexample to the claim as stated: for a concrete node whose
height advances monotonically 0 → 250 (polled at 120, 210, 250) under
checkpoints `[100, 200]` and end height `250`, the run completes
successfully and emits exactly the checkpoint-100 and checkpoint-200
measurement pairs and **no** final/tip measurement — not "two checkpoint
measurements plus one final/tip measurement". -/
theorem ibd_tip_claim_counterexample :
    ibdRun ⟨0, some 250, some [100, 200]⟩ 0
        ([⟨120, 1/2, 10, 5⟩, ⟨210, 1/2, 11, 5⟩,
          ⟨250, 1/2, 12, 5⟩].map mkObs) ⟨13, 0, false, 6⟩ =
      .ok (some (true,
        [⟨.checkpoint 100, false, 0⟩, ⟨.checkpoint 100, true, 5⟩,
         ⟨.checkpoint 200, false, 1⟩, ⟨.checkpoint 200, true, 5⟩])) ∧
    hasTipEmission
        [⟨.checkpoint 100, false, 0⟩, ⟨.checkpoint 100, true, 5⟩,
         ⟨.checkpoint 200, false, 1⟩, ⟨.checkpoint 200, true, 5⟩] = false ∧
    cpHeights
        [⟨.checkpoint 100, false, 0⟩, ⟨.checkpoint 100, true, 5⟩,
         ⟨.checkpoint 200, false, 1⟩, ⟨.checkpoint 200, true, 5⟩] =
      [100, 200] := by
  refine ⟨by with_unfolding_all rfl, by decide, by decide⟩

/-- C5.  Within one successfully completed IBD execution with a strictly
ascending configured checkpoint list and non-decreasing polled heights,
the timing checkpoint measurements are exactly the configured
checkpoints up to the final height, in configuration order — so each is
emitted exactly once (the emitted list is duplicate-free) and the
emissions are in strictly ascending checkpoint order, even when several
checkpoints are crossed between two polls (the drain loops of
benchmarks.py:444-460 and 506-524 pop every passed checkpoint). -/
theorem ibd_checkpoints_once_ascending (cfg : IBDishBench) (h0 : Nat)
    (polls : List PollOb) (env : PostEnv) (st' : IbdState)
    (hsorted : List.Pairwise (· < ·) (cfg.time_heights.getD []))
    (hH : List.Pairwise (· ≤ ·) (polls.map PollOb.height))
    (hT : List.Pairwise (· ≤ ·) (polls.map PollOb.time))
    (hTpos : ∀ q ∈ polls, 0 < q.time)
    (hloop : ibdLoop cfg (polls.map mkObs) (ibdInit cfg h0) =
      .ok (st', .reachedEnd))
    (hret : env.stopRetcode = 0) (hdisk : env.diskLow = false) :
    ∃ ems : List Emission,
      ibdRun cfg h0 (polls.map mkObs) env = .ok (some (true, ems)) ∧
      cpHeights ems =
        (cfg.time_heights.getD []).takeWhile (fun c => c ≤ st'.lastHeight) ∧
      List.Pairwise (· < ·) (cpHeights ems) ∧
      (cpHeights ems).Nodup := by
  obtain ⟨ems, hrun, hcp, _, _⟩ :=
    ibdRun_success_spec cfg h0 polls env st' hH hT hTpos hloop hret hdisk
  have hpw : List.Pairwise (· < ·) (cpHeights ems) := by
    rw [hcp]
    exact List.Pairwise.sublist (List.takeWhile_sublist _) hsorted
  refine ⟨ems, hrun, hcp, hpw, ?_⟩
  exact List.Pairwise.imp (fun h => Nat.ne_of_lt h) hpw

/-- Witness for C5 with a trace that crosses both checkpoints between two
polls (heights 50 then 250): both are drained after the loop, once each,
in ascending order. -/
theorem ibd_checkpoints_once_ascending_witness :
    ∃ ems : List Emission,
      ibdRun ⟨0, some 250, some [100, 200]⟩ 0
          ([⟨50, 0, 10, 5⟩, ⟨250, 1/2, 11, 5⟩].map mkObs)
          ⟨13, 0, false, 6⟩ = .ok (some (true, ems)) ∧
      cpHeights ems = List.takeWhile (fun c => c ≤ 250) [100, 200] ∧
      List.Pairwise (· < ·) (cpHeights ems) ∧
      (cpHeights ems).Nodup := by
  refine ibd_checkpoints_once_ascending ⟨0, some 250, some [100, 200]⟩ 0
    [⟨50, 0, 10, 5⟩, ⟨250, 1/2, 11, 5⟩] ⟨13, 0, false, 6⟩
    { checkpoints := [100, 200], lastHeight := 250, progress := some (1/2),
      startTime := some 10, timeNow := some 0, emissions := [],
      heightData := [(50, 0)] }
    (by decide) (by decide) (by with_unfolding_all decide)
    (by with_unfolding_all decide) (by with_unfolding_all rfl) rfl rfl

end Bitcoinperf
